import Mathlib

/-!
Verification development for the Construction_Editor backend.

The Python sources under `backend/` are shallowly embedded as Lean
definitions: strings are `String`/`List Char`, SQL tables are Lean lists
inside an explicit `DB` record, numeric cell values are `ℚ`, fallible
operations return `Except`/`Option`.  Each definition carries a doc comment
pointing at the Python function it translates.
-/

namespace CE

/-! ## Character-level model of the Python string primitives -/

/-- The characters of Python's `str.split()` whitespace class that occur in
this development (ASCII whitespace: space, TAB, LF, CR, VT, FF). -/
def pyIsSpace (c : Char) : Bool :=
  c.toNat = 32 || c.toNat = 9 || c.toNat = 10 || c.toNat = 13 ||
    c.toNat = 11 || c.toNat = 12

/-- The character class `[0-9A-Za-z ]` of the regex in `canon`
(`backfill_from_csv.py`, line 30). -/
def isAllowed (c : Char) : Bool :=
  (48 ≤ c.toNat && c.toNat ≤ 57) || (65 ≤ c.toNat && c.toNat ≤ 90) ||
    (97 ≤ c.toNat && c.toNat ≤ 122) || c.toNat = 32

/-- An ASCII letter or digit: the characters that survive `canon` as word
characters. -/
def isAlnumC (c : Char) : Bool := isAllowed c && !(c.toNat = 32)

/-- Model of `unicodedata.normalize("NFKC", ·)` restricted to a
character-by-character map.  It covers the compatibility whitespace
characters exercised by the importer (NBSP U+00A0 and narrow NBSP U+202F,
whose NFKC form is an ASCII space) and is the identity elsewhere; Unicode
compatibility characters whose NFKC form contains letters or digits
(ligatures, full-width forms, superscripts) are outside the modelled
character set. -/
def nfkcChar (c : Char) : Char :=
  if c.toNat = 0xA0 || c.toNat = 0x202F then ' ' else c

/-- Python `str.replace("\xa0", " ")` as a character map. -/
def nbspRep (c : Char) : Char := if c.toNat = 0xA0 then ' ' else c

/-- Python `str.replace("\u202f", " ")` as a character map. -/
def nnbspRep (c : Char) : Char := if c.toNat = 0x202F then ' ' else c

/-- Extract the maximal runs of characters satisfying `p` (the accumulator
holds the current run reversed).  `splitRuns (!pyIsSpace ·)` is Python's
`str.split()`. -/
def splitRunsAux (p : Char → Bool) : List Char → List Char → List (List Char)
  | [], acc => if acc.isEmpty then [] else [acc.reverse]
  | c :: rest, acc =>
    if p c then splitRunsAux p rest (c :: acc)
    else if acc.isEmpty then splitRunsAux p rest []
    else acc.reverse :: splitRunsAux p rest []

def splitRuns (p : Char → Bool) (l : List Char) : List (List Char) :=
  splitRunsAux p l []

/-- Python `str.split()` (split on whitespace runs, dropping empty parts). -/
def pySplit (l : List Char) : List (List Char) :=
  splitRuns (fun c => !(pyIsSpace c)) l

/-- Python `" ".join(parts)`. -/
def joinSp : List (List Char) → List Char
  | [] => []
  | [w] => w
  | w :: ws => w ++ ' ' :: joinSp ws

/-- Model of `re.sub(r"[^0-9A-Za-z ]+", " ", s)`: each maximal run of
characters outside `[0-9A-Za-z ]` is replaced by a single space.  The flag
records whether we are inside such a run (its space already emitted). -/
def subBadRunsAux : Bool → List Char → List Char
  | _, [] => []
  | inRun, c :: rest =>
    if isAllowed c then c :: subBadRunsAux false rest
    else if inRun then subBadRunsAux true rest
    else ' ' :: subBadRunsAux true rest

/-- Python `str.strip()` (used on pre-tokenised text; ASCII whitespace). -/
def pyStripL (l : List Char) : List Char :=
  ((l.dropWhile pyIsSpace).reverse.dropWhile pyIsSpace).reverse

def pyStrip (s : String) : String := ⟨pyStripL s.data⟩

/-- Python `str.lower()` on a character list; modelled on the ASCII range
(the pipelines below only apply it to ASCII output). -/
def lowerL (l : List Char) : List Char := l.map Char.toLower

/-- Model of `backfill_from_csv.norm_spaces`: replace NBSP and narrow NBSP
by spaces, then `" ".join(s.strip().split())` (the strip is subsumed by
`split()`). -/
def normSpacesL (l : List Char) : List Char :=
  joinSp (pySplit ((l.map nbspRep).map nnbspRep))

def norm_spaces (s : String) : String := ⟨normSpacesL s.data⟩

/-- Model of `backfill_from_csv.canon`: NFKC-normalize, replace NBSP and
narrow NBSP by spaces, replace each run of characters outside
`[0-9A-Za-z ]` by a single space (`re.sub`), then
`" ".join(s.split()).lower()`. -/
def canon (s : String) : String :=
  ⟨lowerL (joinSp (pySplit
      (subBadRunsAux false (((s.data.map nfkcChar).map nbspRep).map nnbspRep))))⟩

/-- The spec clause "map all whitespace variants (including non-breaking and
narrow-non-breaking space) to ASCII space" from the spec's pipeline. -/
def wsToSpace (c : Char) : Char :=
  if pyIsSpace c || c.toNat = 0xA0 || c.toNat = 0x202F then ' ' else c

/-- The spec's reference pipeline for C3, word for word: Unicode
compatibility normalization, whitespace variants to ASCII space, *strip
(remove)* every character that is not an ASCII letter, digit or space,
collapse internal whitespace runs to one space, trim, lower-case. -/
def canonSpecStrip (s : String) : String :=
  ⟨lowerL (joinSp (pySplit
      (((s.data.map nfkcChar).map wsToSpace).filter isAllowed)))⟩

/-- The amended pipeline: as `canonSpecStrip`, but each character that is
not an ASCII letter, digit or space is *replaced by a space* instead of
removed (then whitespace runs collapse as before). -/
def canonAmended (s : String) : String :=
  ⟨lowerL (joinSp (pySplit
      (((s.data.map nfkcChar).map wsToSpace).map
        (fun c => if isAllowed c then c else ' '))))⟩

/-- Registry `PRIMARY_SECTIONS` of `backfill_from_csv.py`. -/
def PRIMARY_SECTIONS : List String :=
  ["Outside", "Ground Floor", "1st Floor", "Roof", "Waste Removal",
   "Staffing expenses", "Staffing Needed"]

/-- Set `PRIMARY_CANON = {canon(x) for x in PRIMARY_SECTIONS}` (as a list). -/
def PRIMARY_CANON : List String := PRIMARY_SECTIONS.map canon

/-- Model of `backfill_from_csv.is_section_label`. -/
def is_section_label (cell : String) : Bool :=
  PRIMARY_CANON.contains (canon cell)

example : canon "a-b" = "a b" := by decide
example : canonSpecStrip "a-b" = "ab" := by decide
example : canonAmended "a-b" = "a b" := by decide
example : canon "  Ground  FLOOR:" = "ground floor" := by decide
example : is_section_label "ROOF." = true := by decide
example : is_section_label "Lobby" = false := by decide

/-! ## Numeric parsing -/

def digitsVal (l : List Char) : Nat :=
  l.foldl (fun a c => a * 10 + (c.toNat - 48)) 0

/-- Value of a decimal literal `digits [ '.' digits ]` (either part may be
empty but not both; a lone `.` is invalid). -/
def decimalVal? (l : List Char) : Option ℚ :=
  let ip := l.takeWhile Char.isDigit
  let rest := l.dropWhile Char.isDigit
  match rest with
  | [] => if ip.isEmpty then none else some (digitsVal ip : ℚ)
  | '.' :: fp =>
    if fp.all Char.isDigit && !(ip.isEmpty && fp.isEmpty) then
      some ((digitsVal ip : ℚ) + (digitsVal fp : ℚ) / ((10 : ℚ) ^ fp.length))
    else none
  | _ => none

/-- Model of Python `float(s)` on the inputs this code base feeds it:
surrounding whitespace is ignored, then an optionally signed decimal
literal; anything else (including `"1,234"`) raises `ValueError`, modelled
as `none`.  (The exponent / `inf` / `nan` forms of `float` are not
exercised by the importers and are outside the model.) -/
def pyFloat? (s : String) : Option ℚ :=
  match pyStripL s.data with
  | '+' :: r => decimalVal? r
  | '-' :: r => (decimalVal? r).map (fun q => -q)
  | r => decimalVal? r

/-- Model of `backfill_from_csv.parse_float`: `norm_spaces`, empty string
gives `None`, then `float(x)` with `ValueError` degraded to `None`. -/
def parse_float (x : String) : Option ℚ :=
  let x := norm_spaces x
  if x = "" then none else pyFloat? x

/-- Model of `import_csv.as_float` (cell values are `Option String`, with
`none` standing for `None`/`NaN`): `str(v).strip().replace(",", "")`,
empty gives `None`, then `float` with failures degraded to `None`. -/
def as_float (v : Option String) : Option ℚ :=
  match v with
  | none => none
  | some s =>
    let t : String := ⟨(pyStripL s.data).filter (fun c => !(c.toNat = 44))⟩
    if t = "" then none else pyFloat? t

/-- Model of `import_csv.as_text`. -/
def as_text (v : Option String) : Option String :=
  match v with
  | none => none
  | some s => let t := pyStrip s; if t = "" then none else some t

example : parse_float " 4.5 " = some (9 / 2) := by
  show some (((4:ℕ) : ℚ) + ((5:ℕ) : ℚ) / ((10 : ℚ) ^ (1:ℕ))) = some ((9:ℚ) / 2)
  norm_num
example : parse_float "1,234" = none := by decide
example : as_float (some "1,234") = some 1234 := by
  show some (((1234:ℕ) : ℚ)) = some (1234 : ℚ)
  norm_num
example : as_float (some " 4.5 ") = some (9 / 2) := by
  show some (((4:ℕ) : ℚ) + ((5:ℕ) : ℚ) / ((10 : ℚ) ^ (1:ℕ))) = some ((9:ℚ) / 2)
  norm_num

/-! ## The relational store

One record per row of the three tables the importers touch
(`sheets`, `rows`, `day_cells`), plus the two audit tables, all inside a
single `DB` value.  Surrogate ids are explicit (`nextRowId` /
`nextSheetId` model the sequences). -/

structure SheetRec where
  id : Nat
  name : String
deriving DecidableEq

structure RowRec where
  id : Nat
  sheet_id : Nat
  «section» : String
  subsection : Option String
  row_order : Nat
deriving DecidableEq

structure CellRec where
  row_id : Nat
  day : Int
  task : Option String
  hours : Option ℚ
  labor_code : Option String
deriving DecidableEq

/-- Rows of `audit_log` written by `app.write_audit`. -/
structure AppAuditRec where
  who : String
  action : String
  updated : Nat
deriving DecidableEq

/-- Rows of `AuditLog` written by `crud.audit`. -/
structure CrudAuditRec where
  op : String
  obj : String
  meta : String
deriving DecidableEq

structure DB where
  sheets : List SheetRec
  rows : List RowRec
  cells : List CellRec
  appAudit : List AppAuditRec
  crudAudit : List CrudAuditRec
  nextSheetId : Nat
  nextRowId : Nat
deriving DecidableEq

def emptyDB : DB := ⟨[], [], [], [], [], 1, 1⟩

/-! ## backfill_from_csv row/cell operations -/

/-- Query `SELECT COALESCE(MAX(row_order),0)+1 FROM rows WHERE sheet_id=%s`
(`backfill_from_csv.next_row_order`). -/
def next_row_order (db : DB) (sheet_id : Nat) : Nat :=
  ((db.rows.filter (fun r => r.sheet_id = sheet_id)).foldl
    (fun m r => max m r.row_order) 0) + 1

/-- Model of `backfill_from_csv.find_existing_row`: exact match on the stored
section/subsection (SQL `IS NULL` for a `None` subsection). -/
def find_existing_row (db : DB) (sheet_id : Nat) («section» : String)
    (subsection : Option String) : Option Nat :=
  ((db.rows.filter (fun r =>
      r.sheet_id = sheet_id && r.«section» = «section» &&
        r.subsection = subsection)).head?).map (fun r => r.id)

/-- Model of `backfill_from_csv.get_or_create_row_id`: reuse the existing row id, or
insert a new row with `row_order = next_row_order`. -/
def get_or_create_row_id (db : DB) (sheet_id : Nat) («section» : String)
    (subsection : Option String) : Nat × DB :=
  match find_existing_row db sheet_id «section» subsection with
  | some rid => (rid, db)
  | none =>
    let ro := next_row_order db sheet_id
    (db.nextRowId,
      { db with
          rows := db.rows ++ [⟨db.nextRowId, sheet_id, «section», subsection, ro⟩],
          nextRowId := db.nextRowId + 1 })

/-- Statement `INSERT ... ON CONFLICT (row_id, day) DO UPDATE` — the atomic upsert
used by `backfill_from_csv.upsert_cell`, `crud.bulk_upsert_cells` and
`app.bulk_upsert`. -/
def upsert_cell (db : DB) (rid : Nat) (day : Int) (task : Option String)
    (hours : Option ℚ) (labor : Option String) : DB :=
  if db.cells.any (fun c => c.row_id = rid && c.day = day) then
    { db with
        cells := db.cells.map (fun c =>
          if c.row_id = rid && c.day = day then
            { c with task := task, hours := hours, labor_code := labor }
          else c) }
  else
    { db with cells := db.cells ++ [⟨rid, day, task, hours, labor⟩] }

/-! ## backfill_from_csv: header scan, column auto-detection, main loop -/

/-- Python dict assignment `m[k] = v` for the `day_cols`/`time_cols`/
`labor_cols` dicts (insert or overwrite; keys stay unique). -/
def dictInsert (m : List (Int × Nat)) (k : Int) (v : Nat) : List (Int × Nat) :=
  if m.any (fun p => p.1 = k) then
    m.map (fun p => if p.1 = k then (k, v) else p)
  else m ++ [(k, v)]

/-- Python `m.get(k)`. -/
def dictGet? (m : List (Int × Nat)) (k : Int) : Option Nat :=
  ((m.filter (fun p => p.1 = k)).head?).map (fun p => p.2)

/-- Case-insensitive literal-prefix matcher (the fixed `day`/`time`/`labor`
part of the header regexes). -/
def dropPrefCI : List Char → List Char → Option (List Char)
  | [], l => some l
  | _ :: _, [] => none
  | k :: ks, c :: cs =>
    if Char.toLower c = Char.toLower k then dropPrefCI ks cs else none

/-- Model of `re.match` for `^\s*KEY\s*(\d+)\s*$` with `re.I`
(`DAY_RE`/`TIME_RE`/`LABOR_RE`): returns the captured number. -/
def keyNum? (key : List Char) (s : List Char) : Option Int :=
  match dropPrefCI key (s.dropWhile pyIsSpace) with
  | none => none
  | some rest =>
    let rest2 := rest.dropWhile pyIsSpace
    let ds := rest2.takeWhile Char.isDigit
    let tl := rest2.dropWhile Char.isDigit
    if !ds.isEmpty && tl.all pyIsSpace then some (digitsVal ds : Int) else none

structure ColMaps where
  dayCols : List (Int × Nat)
  timeCols : List (Int × Nat)
  laborCols : List (Int × Nat)
deriving DecidableEq

/-- The header loop of `backfill_from_csv.main` (lines 128-140): map
Day/Time/Labor columns by index, skipping blank headers, with the
`if/elif` precedence of the source. -/
def scanHeaderAux (idx : Nat) (m : ColMaps) : List String → ColMaps
  | [] => m
  | h :: rest =>
    let m' :=
      if h = "" then m
      else
        match keyNum? "day".data h.data with
        | some d => { m with dayCols := dictInsert m.dayCols d idx }
        | none =>
          match keyNum? "time".data h.data with
          | some d => { m with timeCols := dictInsert m.timeCols d idx }
          | none =>
            match keyNum? "labor".data h.data with
            | some d => { m with laborCols := dictInsert m.laborCols d idx }
            | none => m
    scanHeaderAux (idx + 1) m' rest

def scanHeader (header : List String) : ColMaps := scanHeaderAux 0 ⟨[], [], []⟩ header

/-- Hits of `is_section_label` in one column over the first `limit` data
rows (auto-detection scoring loop, lines 148-154). -/
def colScore (data : List (List String)) (limit : Nat) (col : Nat) : Nat :=
  ((data.take limit).filter
    (fun row => is_section_label (norm_spaces (row.getD col "")))).length

/-- Python `max(scores, key=scores.get)` over an insertion-ordered dict:
the first key attaining the maximal score wins. -/
def argmaxFirst (l : List (Nat × Nat)) : Option Nat :=
  match l with
  | [] => none
  | p :: rest =>
    some ((rest.foldl (fun best q => if best.2 < q.2 then q else best) p).1)

/-- Label-column auto-detection (`name_col_index is None` path). -/
def autoDetectNameCol (header : List String) (data : List (List String)) : Nat :=
  let limit := min 300 data.length
  let scores := (List.range header.length).map (fun col => (col, colScore data limit col))
  (argmaxFirst scores).getD 0

/-- Test `current_section in ("Roof", "Staffing expenses")`. -/
def isSingleton (s : String) : Bool := s = "Roof" || s = "Staffing expenses"

/-- Loop `for s in PRIMARY_SECTIONS: if canon(s) == c: ... break` — the first
registry entry with the same canonical key. -/
def canonicalSectionFor (name : String) : Option String :=
  (PRIMARY_SECTIONS.filter (fun s => canon s = canon name)).head?

def intPairLe (p q : Int × Nat) : Prop := p.1 ≤ q.1

instance : DecidableRel intPairLe := fun p q => Int.decLe p.1 q.1

instance : IsTotal (Int × Nat) intPairLe := ⟨fun p q => Int.le_total p.1 q.1⟩

instance : IsTrans (Int × Nat) intPairLe := ⟨fun _ _ _ h h' => le_trans h h'⟩

/-- Loop `for d in sorted(day_cols)`: the dict's entries in ascending key
order (keys are unique by construction). -/
def sortedEntries (m : List (Int × Nat)) : List (Int × Nat) :=
  List.insertionSort intPairLe m

structure BackfillCfg where
  sheet : Nat
  nameCol : Nat
  cols : ColMaps
  dry : Bool
deriving DecidableEq

structure ScanState where
  db : DB
  currentSection : Option String
  singleRowId : Option Nat
  sectionRowsSeen : Nat
  dataRowsSeen : Nat
  cellsDetected : Nat
deriving DecidableEq

/-- The per-day body of the scan loop (lines 227-241): read
task/hours/labor for day `e.1` from columns `e.2`/`time_cols.get`/
`labor_cols.get`, count and upsert the cell when any field is truthy
(`--dry` skips only the write). -/
def backfillCell (cfg : BackfillCfg) (row : List String) (rid : Nat)
    (acc : DB × Nat) (e : Int × Nat) : DB × Nat :=
  let task := norm_spaces (row.getD e.2 "")
  let hours :=
    match dictGet? cfg.cols.timeCols e.1 with
    | some t => if t < row.length then parse_float (row.getD t "") else none
    | none => none
  let labor :=
    match dictGet? cfg.cols.laborCols e.1 with
    | some t => if t < row.length then some (norm_spaces (row.getD t "")) else none
    | none => none
  if task ≠ "" || hours ≠ none ||
      (match labor with | some s => s ≠ "" | none => false) then
    ((if cfg.dry then acc.1 else upsert_cell acc.1 rid e.1 (some task) hours labor),
      acc.2 + 1)
  else acc

/-- One iteration of the scan loop of `backfill_from_csv.main`
(lines 191-241). -/
def backfillLine (cfg : BackfillCfg) (st : ScanState) (row : List String) :
    ScanState :=
  let name := norm_spaces (row.getD cfg.nameCol "")
  if is_section_label name then
    match canonicalSectionFor name with
    | some s =>
      let st' := { st with
        currentSection := some s,
        sectionRowsSeen := st.sectionRowsSeen + 1,
        singleRowId := none }
      if isSingleton s then
        let p := get_or_create_row_id st'.db cfg.sheet s none
        { st' with db := p.2, singleRowId := some p.1 }
      else st'
    | none => st
  else
    match st.currentSection with
    | none => st
    | some cur =>
      if isSingleton cur then
        match st.singleRowId with
        | some rid =>
          let p := (sortedEntries cfg.cols.dayCols).foldl
            (backfillCell cfg row rid) (st.db, st.cellsDetected)
          { st with db := p.1, cellsDetected := p.2 }
        | none => st
      else
        if name = "" then st
        else
          let q := get_or_create_row_id st.db cfg.sheet cur (some name)
          let p := (sortedEntries cfg.cols.dayCols).foldl
            (backfillCell cfg row q.1) (q.2, st.cellsDetected)
          { st with
              db := p.1,
              dataRowsSeen := st.dataRowsSeen + 1,
              cellsDetected := p.2 }

/-- Model of `backfill_from_csv.main` after argument parsing: the whole run
is one transaction, committed at the end (`--dry` rolls it back); an empty
CSV aborts.  Returns the final store and `cells_detected`. -/
def backfillMain (db : DB) (sheet : Nat) (nameColOverride : Option Nat)
    (dry : Bool) (table : List (List String)) : Except String (DB × Nat) :=
  match table with
  | [] => .error "CSV appears empty."
  | hrow :: data =>
    let header := hrow.map norm_spaces
    let cols := scanHeader header
    let nameCol := nameColOverride.getD (autoDetectNameCol header data)
    let cfg : BackfillCfg := ⟨sheet, nameCol, cols, dry⟩
    let final := data.foldl (backfillLine cfg) ⟨db, none, none, 0, 0, 0⟩
    .ok ((if dry then db else final.db), final.cellsDetected)

instance exceptDecEq {ε α : Type} [DecidableEq ε] [DecidableEq α] :
    DecidableEq (Except ε α) := fun x y =>
  match x, y with
  | .ok a, .ok b =>
    if h : a = b then isTrue (congrArg Except.ok h)
    else isFalse (fun hh => h (Except.ok.inj hh))
  | .error a, .error b =>
    if h : a = b then isTrue (congrArg Except.error h)
    else isFalse (fun hh => h (Except.error.inj hh))
  | .ok _, .error _ => isFalse (fun hh => Except.noConfusion hh)
  | .error _, .ok _ => isFalse (fun hh => Except.noConfusion hh)

example :
    scanHeader ["Name", "Day 1", "Time 1", "Labor 1"] =
      ⟨[(1, 1)], [(1, 2)], [(1, 3)]⟩ := by decide

example :
    backfillMain emptyDB 7 none false [["Name"], ["Roof"]] =
      .ok ({ emptyDB with
              rows := [⟨1, 7, "Roof", none, 1⟩],
              nextRowId := 2 }, 0) := by decide

/-! ## crud.py -/

/-- Model of `crud.get_or_create_sheet`. -/
def get_or_create_sheet (db : DB) (name : String) : Nat × DB :=
  match ((db.sheets.filter (fun s => s.name = name)).head?).map (fun s => s.id) with
  | some sid => (sid, db)
  | none =>
    (db.nextSheetId,
      { db with
          sheets := db.sheets ++ [⟨db.nextSheetId, name⟩],
          nextSheetId := db.nextSheetId + 1 })

/-- Model of `crud.audit`: the `AuditLog` insert inside `try/except: pass` — a
failing insert (modelled by `auditOk = false`) leaves the store untouched
and raises nothing. -/
def crud_audit (auditOk : Bool) (db : DB) (op obj meta : String) : DB :=
  if auditOk then { db with crudAudit := db.crudAudit ++ [⟨op, obj, meta⟩] }
  else db

/-- Model of `crud.bulk_upsert_cells`: empty batch is a no-op returning 0; otherwise
one multi-row `INSERT ... ON CONFLICT DO UPDATE`, then the best-effort
audit, returning `len(records)`. -/
def bulk_upsert_cells (auditOk : Bool) (db : DB) (records : List CellRec) :
    DB × Nat :=
  if records.isEmpty then (db, 0)
  else
    let db' := records.foldl
      (fun d r => upsert_cell d r.row_id r.day r.task r.hours r.labor_code) db
    (crud_audit auditOk db' "bulk_upsert" "day_cell"
        ("n=" ++ toString records.length),
      records.length)

/-! ## import_csv.py -/

/-- Registry `import_csv.CANON_SECTIONS` (note: only 4 entries, unlike the
7-entry backfill registry). -/
def CANON_SECTIONS : List String := ["Outside", "Ground Floor", "1st Floor", "Roof"]

/-- Model of `import_csv.normalize_section`. -/
def normalize_section (label : String) : Option String :=
  let lab := pyStrip label
  if CANON_SECTIONS.contains lab then some lab
  else if (⟨lowerL lab.data⟩ : String) = "first floor" then some "1st Floor"
  else none

/-- Python `int(tok)` on a whitespace-free token: optional sign, digits. -/
def pyInt? (l : List Char) : Option Int :=
  match l with
  | '+' :: ds => if !ds.isEmpty && ds.all Char.isDigit then some (digitsVal ds : Int) else none
  | '-' :: ds => if !ds.isEmpty && ds.all Char.isDigit then some (-(digitsVal ds : Int)) else none
  | ds => if !ds.isEmpty && ds.all Char.isDigit then some (digitsVal ds : Int) else none

/-- Test `str(c).strip().lower().startswith("day ")`. -/
def startsWithDay (c : String) : Bool :=
  "day ".data.isPrefixOf (lowerL (pyStripL c.data))

/-- One discovered day triple: pandas column names are modelled by their
indices (`tcol = cols[i+1]`, `lcol = cols[i+2]`; header names are assumed
distinct, so name lookup and index lookup agree). -/
structure Triplet where
  dayCol : Nat
  timeCol : Option Nat
  laborCol : Option Nat
  day : Int
deriving DecidableEq

/-- The triplet-discovery loop of `import_csv.import_csv` (lines 25-34):
`int(str(c).split()[-1])` failures skip the column. -/
def computeTriplets (cols : List String) : List Triplet :=
  cols.enum.filterMap (fun p =>
    if startsWithDay p.2 then
      match pyInt? ((pySplit p.2.data).getLastD []) with
      | some d =>
        some ⟨p.1,
          (if p.1 + 1 < cols.length then some (p.1 + 1) else none),
          (if p.1 + 2 < cols.length then some (p.1 + 2) else none), d⟩
      | none => none
    else none)

/-- A pandas cell: `none` stands for `None`/`NaN`. -/
def cellAt (row : List (Option String)) (i : Nat) : Option String :=
  row.getD i none

/-- Test `r.get(c) not in (None, "") and not pd.isna(r.get(c))`. -/
def contentful (v : Option String) : Bool :=
  match v with | some s => s ≠ "" | none => false

def tripletHasContent (row : List (Option String)) (t : Triplet) : Bool :=
  contentful (cellAt row t.dayCol) ||
    (match t.timeCol with | some j => contentful (cellAt row j) | none => false) ||
    (match t.laborCol with | some j => contentful (cellAt row j) | none => false)

structure ImportState where
  db : DB
  currentSection : Option String
  rowOrder : Nat
  records : List CellRec
deriving DecidableEq

/-- One iteration of the body loop of `import_csv.import_csv`
(lines 68-105): a row with no triplet content is a (potential) section
header; otherwise a data row inserts a fresh `Row` and collects its
non-empty day records (with the leaked-task fallback of lines 96-100;
`ch.isalpha()` is modelled on ASCII). -/
def importLine (sheet_id : Nat) (triplets : List Triplet)
    (st : ImportState) (row : List (Option String)) : ImportState :=
  let label := (cellAt row 0).map pyStrip
  if !(triplets.any (tripletHasContent row)) then
    match normalize_section (label.getD "") with
    | some c => { st with currentSection := some c }
    | none => st
  else
    match st.currentSection with
    | none => st
    | some cur =>
      let subsection := label.getD ""
      let ro := st.rowOrder + 1
      let rid := st.db.nextRowId
      let db' := { st.db with
        rows := st.db.rows ++ [⟨rid, sheet_id, cur, some subsection, ro⟩],
        nextRowId := rid + 1 }
      let recs := triplets.filterMap (fun t =>
        let task0 := as_text (cellAt row t.dayCol)
        let hours := match t.timeCol with
          | some j => as_float (cellAt row j) | none => none
        let labor := match t.laborCol with
          | some j => as_text (cellAt row j) | none => none
        let task := if task0 = none && hours = none then
            match (match t.timeCol with
                   | some j => as_text (cellAt row j) | none => none) with
            | some m => if m.data.any Char.isAlpha then some m else task0
            | none => task0
          else task0
        if task = none && hours = none && labor = none then none
        else some ⟨rid, t.day, task, hours, labor⟩)
      { st with db := db', rowOrder := ro, records := st.records ++ recs }

/-- Model of `import_csv.import_csv`: abort (`RuntimeError`) before any
write when no Day-N columns are found; otherwise get-or-create the sheet,
*delete the sheet's existing day-cells and rows*, rebuild rows from the
body, and bulk-upsert the collected records in one committed session. -/
def import_csv (auditOk : Bool) (db : DB) (cols : List String)
    (body : List (List (Option String))) (sheet_name : String) :
    Except String DB :=
  let triplets := computeTriplets cols
  if triplets.isEmpty then .error "No 'Day N' columns found"
  else
    let p := get_or_create_sheet db sheet_name
    let rowIds := (p.2.rows.filter (fun r => r.sheet_id = p.1)).map (fun r => r.id)
    let db1 := { p.2 with
      cells := p.2.cells.filter (fun c => !(rowIds.contains c.row_id)),
      rows := p.2.rows.filter (fun r => !(r.sheet_id = p.1)) }
    let stF := body.foldl (importLine p.1 triplets) ⟨db1, none, 0, []⟩
    .ok (bulk_upsert_cells auditOk stF.db stF.records).1

/-! ## app.py -/

/-- Model of `app.write_audit`: try the `jsonb` insert; on failure roll back (the
audit connection only) and retry as plain text; a failure of the second
insert propagates.  The two flags model the success of the two attempts;
the JSON payload is abstracted to the `updated` count it reports. -/
def write_audit (firstOk secondOk : Bool) (db : DB) (who action : String)
    (updated : Nat) : Except String DB :=
  let w := if who = "" then "anonymous" else who
  if firstOk then .ok { db with appAudit := db.appAudit ++ [⟨w, action, updated⟩] }
  else if secondOk then .ok { db with appAudit := db.appAudit ++ [⟨w, action, updated⟩] }
  else .error "audit insert failed"

/-- Model of `schemas.BulkCell` / the records of `POST /cells/bulk_upsert`. -/
structure BulkCell where
  row_id : Nat
  day : Int
  task : Option String
  hours : Option ℚ
  labor_code : Option String
deriving DecidableEq

/-- Model of `app.bulk_upsert`: empty payload short-circuits; otherwise every record
is upserted inside one transaction (committed when the `engine.begin()`
block exits), and only then is `write_audit` attempted — its exception, if
any, escapes to the caller *after* the data commit.  Returns the final
store and the endpoint outcome. -/
def bulk_upsert (firstOk secondOk : Bool) (db : DB) (user : String)
    (records : List BulkCell) : DB × Except String Nat :=
  if records.isEmpty then (db, .ok 0)
  else
    let db' := records.foldl
      (fun d r => upsert_cell d r.row_id r.day r.task r.hours r.labor_code) db
    let updated := records.length
    match write_audit firstOk secondOk db' user "bulk_upsert" updated with
    | .ok db'' => (db'', .ok updated)
    | .error e => (db', .error e)

/-- Postgres `TRIM(s)` (strips the space character). -/
def sqlTrim (s : String) : String :=
  ⟨((s.data.dropWhile (fun c => c.toNat = 32)).reverse.dropWhile
      (fun c => c.toNat = 32)).reverse⟩

/-- SQL `LOWER(s)`, modelled on the ASCII range. -/
def sqlLower (s : String) : String := ⟨lowerL s.data⟩

/-- Expression `COALESCE(NULLIF(TRIM(subsection), ''), '(none)')`. -/
def coalesceSub (sub : Option String) : String :=
  match sub with
  | none => "(none)"
  | some s => let t := sqlTrim s; if t = "" then "(none)" else t

def rowIdLe (a b : RowRec) : Prop := a.id ≤ b.id

instance : DecidableRel rowIdLe := fun a b => Nat.decLe a.id b.id

instance : IsTotal RowRec rowIdLe := ⟨fun a b => Nat.le_total a.id b.id⟩

instance : IsTrans RowRec rowIdLe := ⟨fun _ _ _ h h' => Nat.le_trans h h'⟩

/-- Predicate `LOWER(TRIM(section)) = LOWER(:sec)`. -/
def sectionMatches (r : RowRec) (sec : String) : Bool :=
  sqlLower (sqlTrim r.«section») = sqlLower sec

/-- The row-selection queries of `app.get_block` (lines 121-153): singleton
sections and blank/`"(none)"` subsections select by section only;
otherwise the subsection must equal
`COALESCE(NULLIF(TRIM(subsection), ''), '(none)')`; all three variants are
`ORDER BY id`. -/
def getBlockRows (db : DB) (sheet_id : Nat) (sec ss : String) : List RowRec :=
  if isSingleton sec then
    List.insertionSort rowIdLe
      (db.rows.filter (fun r => r.sheet_id = sheet_id && sectionMatches r sec))
  else if ss ≠ "" && ss ≠ "(none)" then
    List.insertionSort rowIdLe
      (db.rows.filter (fun r =>
        r.sheet_id = sheet_id && sectionMatches r sec &&
          coalesceSub r.subsection = ss))
  else
    List.insertionSort rowIdLe
      (db.rows.filter (fun r => r.sheet_id = sheet_id && sectionMatches r sec))

structure BlockCell where
  task : Option String
  time : Option ℚ
  labor : Option String
deriving DecidableEq

structure BlockRow where
  row_id : Nat
  «section» : String
  subsection : String
  days : List (Int × BlockCell)
deriving DecidableEq

structure BlockResult where
  rows : List BlockRow
deriving DecidableEq

/-- Python `range(start_day, end_day + 1)`. -/
def dayRangeI (s e : Int) : List Int :=
  (List.range (e + 1 - s).toNat).map (fun i => s + (i : Int))

/-- The day-cell fetched for `(rid, d)`; when several match, the last one
applied wins (`apply_cell` overwrites; dict comprehension keeps the last). -/
def lastCell? (cells : List CellRec) (rid : Nat) (d : Int) : Option CellRec :=
  (cells.filter (fun c => c.row_id = rid && c.day = d)).getLast?

/-- Model of `app.get_block`: the `start_day > end_day` guard, the row
selection, the per-row dict with all-null day fields, then the day-cells
of the range applied on top.  Display subsection is the Python-trimmed
stored value, `"(none)"` when blank or for singleton sections. -/
def get_block (db : DB) (sheet_id : Nat) (sec ss : String)
    (start_day end_day : Int) : BlockResult :=
  if start_day > end_day then ⟨[]⟩
  else
    ⟨(getBlockRows db sheet_id sec ss).map (fun r =>
      let sub_out := if isSingleton sec then "(none)"
        else match r.subsection with
          | some s => let t := pyStrip s; if t = "" then "(none)" else t
          | none => "(none)"
      { row_id := r.id, «section» := r.«section», subsection := sub_out,
        days := (dayRangeI start_day end_day).map (fun d =>
          (d, match lastCell? db.cells r.id d with
              | some c => ⟨c.task, c.hours, c.labor_code⟩
              | none => ⟨none, none, none⟩)) })⟩

def rowOrderLe (a b : RowRec) : Prop := a.row_order ≤ b.row_order

instance : DecidableRel rowOrderLe := fun a b => Nat.decLe a.row_order b.row_order

instance : IsTotal RowRec rowOrderLe := ⟨fun a b => Nat.le_total a.row_order b.row_order⟩

instance : IsTrans RowRec rowOrderLe := ⟨fun _ _ _ h h' => Nat.le_trans h h'⟩

structure FetchRow where
  row_id : Nat
  subsection : Option String
  days : List (Int × BlockCell)
deriving DecidableEq

structure FetchResult where
  rows : List FetchRow
  start_day : Int
  end_day : Int
deriving DecidableEq

/-- The row selection of `crud.fetch_block`: exact match on section and
subsection, `ORDER BY row_order`. -/
def fetchBlockRows (db : DB) (sheet_id : Nat) (sec ss : String) :
    List RowRec :=
  List.insertionSort rowOrderLe
    (db.rows.filter (fun r =>
      r.sheet_id = sheet_id && r.«section» = sec && r.subsection = some ss))

/-- Model of `crud.fetch_block`: exact match on section and subsection,
`ORDER BY row_order`, early return when no row matches, otherwise one
record per row with day fields over `range(start_day, end_day + 1)`. -/
def fetch_block (db : DB) (sheet_id : Nat) (sec ss : String)
    (start_day end_day : Int) : FetchResult :=
  let rows := fetchBlockRows db sheet_id sec ss
  if rows.isEmpty then ⟨[], start_day, end_day⟩
  else
    ⟨rows.map (fun r =>
      { row_id := r.id, subsection := r.subsection,
        days := (dayRangeI start_day end_day).map (fun d =>
          (d, match lastCell? db.cells r.id d with
              | some c => ⟨c.task, c.hours, c.labor_code⟩
              | none => ⟨none, none, none⟩)) }),
      start_day, end_day⟩

/-! ## Character-level lemmas -/

lemma toNat_ofNat_valid {n : Nat} (h : n < 55296) : (Char.ofNat n).toNat = n := by
  rw [Char.ofNat, dif_pos (Or.inl h : Nat.isValidChar n)]
  rfl

lemma char_toNat_inj {c d : Char} (h : c.toNat = d.toNat) : c = d := by
  have h2 := congrArg Char.ofNat h
  rwa [Char.ofNat_toNat, Char.ofNat_toNat] at h2

lemma toLower_of_upper {c : Char} (h : 65 ≤ c.toNat ∧ c.toNat ≤ 90) :
    Char.toLower c = Char.ofNat (c.toNat + 32) := by
  show (if c.toNat ≥ 65 ∧ c.toNat ≤ 90 then Char.ofNat (c.toNat + 32) else c) = _
  rw [if_pos ⟨h.1, h.2⟩]

lemma toLower_of_not_upper {c : Char} (h : ¬(65 ≤ c.toNat ∧ c.toNat ≤ 90)) :
    Char.toLower c = c := by
  show (if c.toNat ≥ 65 ∧ c.toNat ≤ 90 then Char.ofNat (c.toNat + 32) else c) = _
  rw [if_neg h]

/-- Lemma: `Char.toLower` agrees only on equal characters or ASCII upper/lower
pairs. -/
lemma toLower_cases {c d : Char} (h : Char.toLower c = Char.toLower d) :
    c = d ∨ (65 ≤ c.toNat ∧ c.toNat ≤ 90 ∧ d.toNat = c.toNat + 32) ∨
      (65 ≤ d.toNat ∧ d.toNat ≤ 90 ∧ c.toNat = d.toNat + 32) := by
  by_cases hc : 65 ≤ c.toNat ∧ c.toNat ≤ 90 <;>
    by_cases hd : 65 ≤ d.toNat ∧ d.toNat ≤ 90
  · rw [toLower_of_upper hc, toLower_of_upper hd] at h
    have h3 := congrArg Char.toNat h
    rw [toNat_ofNat_valid (by omega), toNat_ofNat_valid (by omega)] at h3
    exact Or.inl (char_toNat_inj (by omega))
  · rw [toLower_of_upper hc, toLower_of_not_upper hd] at h
    have h3 := congrArg Char.toNat h
    rw [toNat_ofNat_valid (by omega)] at h3
    exact Or.inr (Or.inl ⟨hc.1, hc.2, h3.symm⟩)
  · rw [toLower_of_not_upper hc, toLower_of_upper hd] at h
    have h3 := congrArg Char.toNat h
    rw [toNat_ofNat_valid (by omega)] at h3
    exact Or.inr (Or.inr ⟨hd.1, hd.2, h3⟩)
  · rw [toLower_of_not_upper hc, toLower_of_not_upper hd] at h
    exact Or.inl h

lemma isAllowed_iff {c : Char} :
    isAllowed c = true ↔
      (48 ≤ c.toNat ∧ c.toNat ≤ 57) ∨ (65 ≤ c.toNat ∧ c.toNat ≤ 90) ∨
        (97 ≤ c.toNat ∧ c.toNat ≤ 122) ∨ c.toNat = 32 := by
  simp only [isAllowed, Bool.or_eq_true, Bool.and_eq_true, decide_eq_true_eq]
  omega

lemma isAllowed_false {c : Char}
    (h : ¬((48 ≤ c.toNat ∧ c.toNat ≤ 57) ∨ (65 ≤ c.toNat ∧ c.toNat ≤ 90) ∨
      (97 ≤ c.toNat ∧ c.toNat ≤ 122) ∨ c.toNat = 32)) : isAllowed c = false :=
  Bool.eq_false_iff.mpr (fun hh => h (isAllowed_iff.mp hh))

lemma isAlnumC_iff {c : Char} :
    isAlnumC c = true ↔
      (48 ≤ c.toNat ∧ c.toNat ≤ 57) ∨ (65 ≤ c.toNat ∧ c.toNat ≤ 90) ∨
        (97 ≤ c.toNat ∧ c.toNat ≤ 122) := by
  simp only [isAlnumC, Bool.and_eq_true, isAllowed_iff, Bool.not_eq_true',
    decide_eq_false_iff_not]
  omega

lemma isAlnumC_false {c : Char}
    (h : ¬((48 ≤ c.toNat ∧ c.toNat ≤ 57) ∨ (65 ≤ c.toNat ∧ c.toNat ≤ 90) ∨
      (97 ≤ c.toNat ∧ c.toNat ≤ 122))) : isAlnumC c = false :=
  Bool.eq_false_iff.mpr (fun hh => h (isAlnumC_iff.mp hh))

lemma pyIsSpace_iff {c : Char} :
    pyIsSpace c = true ↔
      c.toNat = 32 ∨ c.toNat = 9 ∨ c.toNat = 10 ∨ c.toNat = 13 ∨
        c.toNat = 11 ∨ c.toNat = 12 := by
  simp only [pyIsSpace, Bool.or_eq_true, decide_eq_true_eq]
  omega

lemma notSpace_eq_isAlnumC_of_allowed {c : Char} (h : isAllowed c = true) :
    (!(pyIsSpace c)) = isAlnumC c := by
  rw [isAllowed_iff] at h
  by_cases hs : c.toNat = 32
  · have hp : pyIsSpace c = true := by rw [pyIsSpace_iff]; exact Or.inl hs
    have ha : isAlnumC c = false := isAlnumC_false (by omega)
    rw [hp, ha]
    rfl
  · have hp : pyIsSpace c = false := by
      rw [Bool.eq_false_iff]
      intro hh
      rw [pyIsSpace_iff] at hh
      omega
    have ha : isAlnumC c = true := by rw [isAlnumC_iff]; omega
    rw [hp, ha]
    rfl

/-! ## Splitting lemmas: the shared normal form of the canonical pipelines -/

lemma splitRunsAux_cons_pos {p : Char → Bool} {c : Char} (h : p c = true)
    (l acc : List Char) :
    splitRunsAux p (c :: l) acc = splitRunsAux p l (c :: acc) := by
  simp only [splitRunsAux]
  rw [if_pos h]

lemma splitRunsAux_cons_neg {p : Char → Bool} {c : Char} (h : p c = false)
    (l acc : List Char) :
    splitRunsAux p (c :: l) acc =
      if acc.isEmpty then splitRunsAux p l []
      else acc.reverse :: splitRunsAux p l [] := by
  simp only [splitRunsAux]
  rw [if_neg (by rw [h]; exact Bool.false_ne_true)]

lemma subBadRunsAux_cons_allowed {c : Char} (h : isAllowed c = true)
    (b : Bool) (l : List Char) :
    subBadRunsAux b (c :: l) = c :: subBadRunsAux false l := by
  simp only [subBadRunsAux]
  rw [if_pos h]

lemma subBadRunsAux_cons_bad_in {c : Char} (h : isAllowed c = false)
    (l : List Char) :
    subBadRunsAux true (c :: l) = subBadRunsAux true l := by
  simp only [subBadRunsAux]
  rw [if_neg (by rw [h]; exact Bool.false_ne_true), if_pos trivial]

lemma subBadRunsAux_cons_bad_out {c : Char} (h : isAllowed c = false)
    (l : List Char) :
    subBadRunsAux false (c :: l) = ' ' :: subBadRunsAux true l := by
  simp only [subBadRunsAux]
  rw [if_neg (by rw [h]; exact Bool.false_ne_true),
    if_neg Bool.false_ne_true]

/-- Runs: `splitRunsAux` only inspects the characters through `p`. -/
lemma splitRunsAux_congr {p q : Char → Bool} :
    ∀ (l : List Char) (acc : List Char), (∀ c ∈ l, p c = q c) →
      splitRunsAux p l acc = splitRunsAux q l acc := by
  intro l
  induction l with
  | nil => intro acc _; rfl
  | cons c rest ih =>
    intro acc h
    have hc : p c = q c := h c (List.mem_cons_self c rest)
    have hrest : ∀ x ∈ rest, p x = q x := fun x hx => h x (List.mem_cons_of_mem c hx)
    by_cases hq : q c = true
    · rw [splitRunsAux_cons_pos (hc.trans hq) rest acc,
        splitRunsAux_cons_pos hq rest acc, ih _ hrest]
    · have hq' : q c = false := Bool.eq_false_iff.mpr hq
      rw [splitRunsAux_cons_neg (hc.trans hq') rest acc,
        splitRunsAux_cons_neg hq' rest acc, ih _ hrest]

/-- Every character emitted by the `re.sub` model lies in `[0-9A-Za-z ]`. -/
lemma mem_subBadRunsAux :
    ∀ (b : Bool) (l : List Char) (c : Char), c ∈ subBadRunsAux b l →
      isAllowed c = true := by
  intro b l
  induction l generalizing b with
  | nil => intro c hc; simp [subBadRunsAux] at hc
  | cons x rest ih =>
    intro c hc
    by_cases hx : isAllowed x = true
    · rw [subBadRunsAux_cons_allowed hx] at hc
      rcases List.mem_cons.mp hc with h | h
      · rwa [h]
      · exact ih false c h
    · have hx' : isAllowed x = false := Bool.eq_false_iff.mpr hx
      cases b with
      | true =>
        rw [subBadRunsAux_cons_bad_in hx'] at hc
        exact ih true c hc
      | false =>
        rw [subBadRunsAux_cons_bad_out hx'] at hc
        rcases List.mem_cons.mp hc with h | h
        · rw [h]; rfl
        · exact ih true c h

/-- Replacing each bad run by one space does not change the maximal
alphanumeric runs. -/
lemma splitRunsAux_subBadRuns (l : List Char) :
    (∀ acc, splitRunsAux isAlnumC (subBadRunsAux false l) acc =
        splitRunsAux isAlnumC l acc) ∧
      splitRunsAux isAlnumC (subBadRunsAux true l) [] =
        splitRunsAux isAlnumC l [] := by
  induction l with
  | nil => exact ⟨fun acc => rfl, rfl⟩
  | cons c rest ih =>
    have hsp : isAlnumC ' ' = false := by decide
    by_cases hall : isAllowed c = true
    · by_cases haln : isAlnumC c = true
      · refine ⟨fun acc => ?_, ?_⟩
        · rw [subBadRunsAux_cons_allowed hall, splitRunsAux_cons_pos haln,
            splitRunsAux_cons_pos haln, ih.1 (c :: acc)]
        · rw [subBadRunsAux_cons_allowed hall, splitRunsAux_cons_pos haln,
            splitRunsAux_cons_pos haln, ih.1 [c]]
      · have haln' : isAlnumC c = false := Bool.eq_false_iff.mpr haln
        refine ⟨fun acc => ?_, ?_⟩
        · rw [subBadRunsAux_cons_allowed hall, splitRunsAux_cons_neg haln',
            splitRunsAux_cons_neg haln', ih.1 []]
        · rw [subBadRunsAux_cons_allowed hall, splitRunsAux_cons_neg haln',
            splitRunsAux_cons_neg haln', ih.1 []]
    · have hall' : isAllowed c = false := Bool.eq_false_iff.mpr hall
      have haln' : isAlnumC c = false :=
        isAlnumC_false (by rw [isAllowed_iff] at hall; omega)
      refine ⟨fun acc => ?_, ?_⟩
      · rw [subBadRunsAux_cons_bad_out hall', splitRunsAux_cons_neg hsp,
          splitRunsAux_cons_neg haln', ih.2]
      · rw [subBadRunsAux_cons_bad_in hall', splitRunsAux_cons_neg haln',
          ih.2]
        rfl

lemma splitRuns_subBadRuns (l : List Char) :
    splitRuns isAlnumC (subBadRunsAux false l) = splitRuns isAlnumC l :=
  (splitRunsAux_subBadRuns l).1 []

/-- A character map that preserves alphanumeric status and fixes
alphanumeric characters does not change the maximal alphanumeric runs. -/
lemma splitRunsAux_map_congr (f : Char → Char)
    (h1 : ∀ c, isAlnumC (f c) = isAlnumC c)
    (h2 : ∀ c, isAlnumC c = true → f c = c) :
    ∀ (l : List Char) (acc : List Char),
      splitRunsAux isAlnumC (l.map f) acc = splitRunsAux isAlnumC l acc := by
  intro l
  induction l with
  | nil => intro acc; rfl
  | cons c rest ih =>
    intro acc
    rw [List.map_cons]
    by_cases haln : isAlnumC c = true
    · rw [splitRunsAux_cons_pos (by rw [h1 c]; exact haln),
        splitRunsAux_cons_pos haln, h2 c haln, ih]
    · have haln' : isAlnumC c = false := Bool.eq_false_iff.mpr haln
      rw [splitRunsAux_cons_neg (by rw [h1 c]; exact haln'),
        splitRunsAux_cons_neg haln', ih]

lemma splitRuns_map_congr (f : Char → Char)
    (h1 : ∀ c, isAlnumC (f c) = isAlnumC c)
    (h2 : ∀ c, isAlnumC c = true → f c = c) (l : List Char) :
    splitRuns isAlnumC (l.map f) = splitRuns isAlnumC l :=
  splitRunsAux_map_congr f h1 h2 l []

lemma pySplit_eq_alnum_of_allowed {l : List Char}
    (h : ∀ c ∈ l, isAllowed c = true) :
    pySplit l = splitRuns isAlnumC l :=
  splitRunsAux_congr l [] (fun c hc => notSpace_eq_isAlnumC_of_allowed (h c hc))

/-- Distribution of `lowerL` over `" ".join`. -/
lemma lowerL_joinSp (ws : List (List Char)) :
    lowerL (joinSp ws) = joinSp (ws.map lowerL) := by
  induction ws with
  | nil => rfl
  | cons w ws ih =>
    cases ws with
    | nil => rfl
    | cons w' ws' =>
      show lowerL (w ++ ' ' :: joinSp (w' :: ws')) =
        lowerL w ++ ' ' :: joinSp (List.map lowerL (w' :: ws'))
      rw [← ih]
      simp [lowerL, List.map_append, show Char.toLower ' ' = ' ' from rfl]

/-- The canonical-key normal form: lower-cased maximal alphanumeric runs of
the NFKC image. -/
def canonKey (l : List Char) : List (List Char) :=
  (splitRuns isAlnumC (l.map nfkcChar)).map lowerL

lemma nbspRep_alnum (c : Char) : isAlnumC (nbspRep c) = isAlnumC c := by
  unfold nbspRep
  by_cases h : c.toNat = 0xA0
  · have h1 : isAlnumC c = false := isAlnumC_false (by omega)
    have h2 : isAlnumC ' ' = false := by decide
    rw [if_pos h, h1, h2]
  · rw [if_neg h]

lemma nbspRep_fix {c : Char} (h : isAlnumC c = true) : nbspRep c = c := by
  rw [isAlnumC_iff] at h
  unfold nbspRep
  rw [if_neg (by omega)]

lemma nnbspRep_alnum (c : Char) : isAlnumC (nnbspRep c) = isAlnumC c := by
  unfold nnbspRep
  by_cases h : c.toNat = 0x202F
  · have h1 : isAlnumC c = false := isAlnumC_false (by omega)
    have h2 : isAlnumC ' ' = false := by decide
    rw [if_pos h, h1, h2]
  · rw [if_neg h]

lemma nnbspRep_fix {c : Char} (h : isAlnumC c = true) : nnbspRep c = c := by
  rw [isAlnumC_iff] at h
  unfold nnbspRep
  rw [if_neg (by omega)]

lemma wsToSpace_alnum (c : Char) : isAlnumC (wsToSpace c) = isAlnumC c := by
  unfold wsToSpace
  by_cases h : (pyIsSpace c || decide (c.toNat = 0xA0) || decide (c.toNat = 0x202F)) = true
  · rw [if_pos h]
    have h2 : isAlnumC c = false := by
      simp only [Bool.or_eq_true, decide_eq_true_eq, pyIsSpace_iff] at h
      exact isAlnumC_false (by omega)
    have h3 : isAlnumC ' ' = false := by decide
    rw [h2, h3]
  · rw [if_neg h]

lemma wsToSpace_fix {c : Char} (h : isAlnumC c = true) : wsToSpace c = c := by
  rw [isAlnumC_iff] at h
  unfold wsToSpace
  rw [if_neg (by
    simp only [Bool.or_eq_true, decide_eq_true_eq, pyIsSpace_iff]
    omega)]

/-- Normal form: `canon` computes the canonical-key normal form. -/
lemma canon_eq_canonKey (s : String) :
    canon s = ⟨joinSp (canonKey s.data)⟩ := by
  unfold canon canonKey
  rw [pySplit_eq_alnum_of_allowed (fun c hc => mem_subBadRunsAux _ _ c hc),
    splitRuns_subBadRuns,
    splitRuns_map_congr nnbspRep nnbspRep_alnum (fun c h => nnbspRep_fix h),
    splitRuns_map_congr nbspRep nbspRep_alnum (fun c h => nbspRep_fix h),
    lowerL_joinSp]

lemma charSub_allowed (c : Char) :
    isAllowed (if isAllowed c then c else ' ') = true := by
  by_cases h : isAllowed c = true
  · rw [if_pos h]; exact h
  · rw [if_neg h]; decide

lemma charSub_alnum (c : Char) :
    isAlnumC (if isAllowed c then c else ' ') = isAlnumC c := by
  by_cases h : isAllowed c = true
  · rw [if_pos h]
  · rw [if_neg h]
    have h2 : isAlnumC c = false :=
      isAlnumC_false (fun hh => h (isAllowed_iff.mpr (by omega)))
    have h3 : isAlnumC ' ' = false := by decide
    rw [h2, h3]

lemma charSub_fix {c : Char} (h : isAlnumC c = true) :
    (if isAllowed c then c else ' ') = c := by
  rw [if_pos (by
    rw [isAlnumC_iff] at h
    exact isAllowed_iff.mpr (by omega))]

/-- Normal form: `canonAmended` computes the same normal form. -/
lemma canonAmended_eq_canonKey (s : String) :
    canonAmended s = ⟨joinSp (canonKey s.data)⟩ := by
  unfold canonAmended canonKey
  rw [pySplit_eq_alnum_of_allowed (fun c hc => by
      rcases List.mem_map.mp hc with ⟨x, _, hx⟩
      exact hx ▸ charSub_allowed x),
    splitRuns_map_congr _ charSub_alnum (fun c h => charSub_fix h),
    splitRuns_map_congr wsToSpace wsToSpace_alnum (fun c h => wsToSpace_fix h),
    lowerL_joinSp]

/-! ## The "visually same label" relation of C9 -/

/-- Whitespace variants: ASCII whitespace, NBSP, narrow NBSP. -/
def wsVarB (c : Char) : Bool :=
  pyIsSpace c || c.toNat = 0xA0 || c.toNat = 0x202F

/-- Copy-paste punctuation: printable ASCII outside `[0-9A-Za-z ]`, smart
quotes, en/em dashes (all NFKC-inert). -/
def punctB (c : Char) : Bool :=
  (33 ≤ c.toNat && c.toNat ≤ 126 && !(isAllowed c)) ||
    c.toNat = 0x2018 || c.toNat = 0x2019 || c.toNat = 0x201C ||
    c.toNat = 0x201D || c.toNat = 0x2013 || c.toNat = 0x2014

/-- Two characters differing only by letter case, or both whitespace
variants. -/
def charVar (c d : Char) : Bool :=
  (c == d) || (Char.toLower c == Char.toLower d) || (wsVarB c && wsVarB d)

def charVarL : List Char → List Char → Bool
  | [], [] => true
  | c :: cs, d :: ds => charVar c d && charVarL cs ds
  | _, _ => false

/-- Raw labels that are "visually the same section": equal up to letter
case and whitespace-variant substitution (`pointwise`), extra whitespace
at either end or doubling existing whitespace (`wsHead`/`wsTail`/`wsDup`),
and trailing punctuation (`punctTail`); closed under symmetry and
transitivity. -/
inductive LabelVar : List Char → List Char → Prop
  | pointwise (l₁ l₂ : List Char) (h : charVarL l₁ l₂ = true) : LabelVar l₁ l₂
  | wsHead (l : List Char) (w : Char) (h : wsVarB w = true) : LabelVar l (w :: l)
  | wsTail (l : List Char) (w : Char) (h : wsVarB w = true) : LabelVar l (l ++ [w])
  | wsDup (a b : List Char) (w w' : Char) (hw : wsVarB w = true)
      (hw' : wsVarB w' = true) : LabelVar (a ++ w :: b) (a ++ w :: w' :: b)
  | punctTail (l : List Char) (q : Char) (h : punctB q = true) :
      LabelVar l (l ++ [q])
  | symm (l₁ l₂ : List Char) (h : LabelVar l₁ l₂) : LabelVar l₂ l₁
  | trans (l₁ l₂ l₃ : List Char) (h1 : LabelVar l₁ l₂) (h2 : LabelVar l₂ l₃) :
      LabelVar l₁ l₃

lemma nfkcChar_eq_self {c : Char} (h1 : c.toNat ≠ 0xA0) (h2 : c.toNat ≠ 0x202F) :
    nfkcChar c = c := by
  unfold nfkcChar
  rw [if_neg (by simp only [Bool.or_eq_true, decide_eq_true_eq]; omega)]

lemma nfkcChar_eq_space {c : Char} (h : c.toNat = 0xA0 ∨ c.toNat = 0x202F) :
    nfkcChar c = ' ' := by
  unfold nfkcChar
  rw [if_pos (by simp only [Bool.or_eq_true, decide_eq_true_eq]; omega)]

lemma wsVarB_iff {c : Char} :
    wsVarB c = true ↔
      c.toNat = 32 ∨ c.toNat = 9 ∨ c.toNat = 10 ∨ c.toNat = 13 ∨
        c.toNat = 11 ∨ c.toNat = 12 ∨ c.toNat = 0xA0 ∨ c.toNat = 0x202F := by
  simp only [wsVarB, Bool.or_eq_true, decide_eq_true_eq, pyIsSpace_iff]
  omega

/-- The NFKC image of a whitespace variant is never alphanumeric. -/
lemma wsVar_nfkc_not_alnum {c : Char} (h : wsVarB c = true) :
    isAlnumC (nfkcChar c) = false := by
  rw [wsVarB_iff] at h
  by_cases h2 : c.toNat = 0xA0 ∨ c.toNat = 0x202F
  · rw [nfkcChar_eq_space h2]
    decide
  · rw [nfkcChar_eq_self (fun hh => h2 (Or.inl hh)) (fun hh => h2 (Or.inr hh))]
    exact isAlnumC_false (by omega)

lemma punctB_iff {c : Char} :
    punctB c = true ↔
      (33 ≤ c.toNat ∧ c.toNat ≤ 126 ∧ isAllowed c = false) ∨
        c.toNat = 0x2018 ∨ c.toNat = 0x2019 ∨ c.toNat = 0x201C ∨
        c.toNat = 0x201D ∨ c.toNat = 0x2013 ∨ c.toNat = 0x2014 := by
  simp only [punctB, Bool.or_eq_true, Bool.and_eq_true, Bool.not_eq_true',
    decide_eq_true_eq]
  tauto

/-- The NFKC image of a punctuation character is never alphanumeric. -/
lemma punct_nfkc_not_alnum {c : Char} (h : punctB c = true) :
    isAlnumC (nfkcChar c) = false := by
  rw [punctB_iff] at h
  rcases h with ⟨h1, h2, h3⟩ | h | h | h | h | h | h
  · rw [nfkcChar_eq_self (by omega) (by omega)]
    simp [isAlnumC, h3]
  all_goals
    rw [nfkcChar_eq_self (by omega) (by omega)]
    exact isAlnumC_false (by omega)

/-- What `canonKey` sees of a `charVar` pair: the same alphanumeric status,
and the same lower-cased character when alphanumeric. -/
lemma charVar_key {c d : Char} (h : charVar c d = true) :
    isAlnumC (nfkcChar c) = isAlnumC (nfkcChar d) ∧
      (isAlnumC (nfkcChar c) = true →
        Char.toLower (nfkcChar c) = Char.toLower (nfkcChar d)) := by
  simp only [charVar, Bool.or_eq_true, Bool.and_eq_true, beq_iff_eq] at h
  rcases h with (hcd | hlow) | ⟨hwc, hwd⟩
  · subst hcd
    exact ⟨rfl, fun _ => rfl⟩
  · rcases toLower_cases hlow with hcd | ⟨h1, h2, h3⟩ | ⟨h1, h2, h3⟩
    · subst hcd
      exact ⟨rfl, fun _ => rfl⟩
    · have hc1 : nfkcChar c = c := nfkcChar_eq_self (by omega) (by omega)
      have hd1 : nfkcChar d = d := nfkcChar_eq_self (by omega) (by omega)
      have hca : isAlnumC c = true := isAlnumC_iff.mpr (by omega)
      have hda : isAlnumC d = true := isAlnumC_iff.mpr (by omega)
      rw [hc1, hd1, hca, hda]
      exact ⟨rfl, fun _ => hlow⟩
    · have hc1 : nfkcChar c = c := nfkcChar_eq_self (by omega) (by omega)
      have hd1 : nfkcChar d = d := nfkcChar_eq_self (by omega) (by omega)
      have hca : isAlnumC c = true := isAlnumC_iff.mpr (by omega)
      have hda : isAlnumC d = true := isAlnumC_iff.mpr (by omega)
      rw [hc1, hd1, hca, hda]
      exact ⟨rfl, fun _ => hlow⟩
  · refine ⟨?_, ?_⟩
    · rw [wsVar_nfkc_not_alnum hwc, wsVar_nfkc_not_alnum hwd]
    · intro hh
      rw [wsVar_nfkc_not_alnum hwc] at hh
      exact absurd hh Bool.false_ne_true

lemma splitRuns_sep_head {p : Char → Bool} {w : Char} (h : p w = false)
    (l : List Char) : splitRuns p (w :: l) = splitRuns p l := by
  unfold splitRuns
  rw [splitRunsAux_cons_neg h]
  rfl

lemma splitRunsAux_sep_tail {p : Char → Bool} {w : Char} (h : p w = false) :
    ∀ (l acc : List Char),
      splitRunsAux p (l ++ [w]) acc = splitRunsAux p l acc := by
  intro l
  induction l with
  | nil =>
    intro acc
    rw [show ([] : List Char) ++ [w] = [w] from rfl, splitRunsAux_cons_neg h]
    cases acc with
    | nil => rfl
    | cons a as => rfl
  | cons c cs ih =>
    intro acc
    show splitRunsAux p (c :: (cs ++ [w])) acc = splitRunsAux p (c :: cs) acc
    by_cases hc : p c = true
    · rw [splitRunsAux_cons_pos hc, splitRunsAux_cons_pos hc, ih]
    · have hc' : p c = false := Bool.eq_false_iff.mpr hc
      rw [splitRunsAux_cons_neg hc', splitRunsAux_cons_neg hc', ih]

lemma splitRunsAux_sep_dup {p : Char → Bool} {x w : Char}
    (hx : p x = false) (hw : p w = false) :
    ∀ (a b acc : List Char),
      splitRunsAux p (a ++ x :: w :: b) acc =
        splitRunsAux p (a ++ x :: b) acc := by
  intro a
  induction a with
  | nil =>
    intro b acc
    show splitRunsAux p (x :: w :: b) acc = splitRunsAux p (x :: b) acc
    rw [splitRunsAux_cons_neg hx, splitRunsAux_cons_neg hx,
      splitRunsAux_cons_neg hw]
    rfl
  | cons y ys ih =>
    intro b acc
    show splitRunsAux p (y :: (ys ++ x :: w :: b)) acc =
      splitRunsAux p (y :: (ys ++ x :: b)) acc
    by_cases hy : p y = true
    · rw [splitRunsAux_cons_pos hy, splitRunsAux_cons_pos hy, ih]
    · have hy' : p y = false := Bool.eq_false_iff.mpr hy
      rw [splitRunsAux_cons_neg hy', splitRunsAux_cons_neg hy', ih]

lemma lowerL_reverse_congr {acc₁ acc₂ : List Char}
    (h : lowerL acc₁ = lowerL acc₂) :
    lowerL acc₁.reverse = lowerL acc₂.reverse := by
  show List.map Char.toLower acc₁.reverse = List.map Char.toLower acc₂.reverse
  rw [List.map_reverse, List.map_reverse]
  exact congrArg List.reverse h

/-- Pointwise `charVar` lists produce the same lower-cased runs. -/
lemma charVarL_pointwise :
    ∀ (l₁ l₂ : List Char), charVarL l₁ l₂ = true →
      ∀ (acc₁ acc₂ : List Char), lowerL acc₁ = lowerL acc₂ →
        (splitRunsAux isAlnumC (l₁.map nfkcChar) acc₁).map lowerL =
          (splitRunsAux isAlnumC (l₂.map nfkcChar) acc₂).map lowerL := by
  intro l₁
  induction l₁ with
  | nil =>
    intro l₂ h acc₁ acc₂ hacc
    cases l₂ with
    | cons d ds => exact absurd h (by simp [charVarL])
    | nil =>
      have hie : acc₁.isEmpty = acc₂.isEmpty := by
        have hlen : acc₁.length = acc₂.length := by
          have h2 := congrArg List.length hacc
          simpa [lowerL] using h2
        cases acc₁ <;> cases acc₂ <;> simp_all
      show List.map lowerL (splitRunsAux isAlnumC [] acc₁) =
        List.map lowerL (splitRunsAux isAlnumC [] acc₂)
      unfold splitRunsAux
      rw [hie]
      by_cases hc : acc₂.isEmpty = true
      · rw [if_pos hc, if_pos hc]
      · rw [if_neg hc, if_neg hc]
        simp only [List.map_cons, List.map_nil]
        rw [lowerL_reverse_congr hacc]
  | cons c cs ih =>
    intro l₂ h acc₁ acc₂ hacc
    cases l₂ with
    | nil => exact absurd h (by simp [charVarL])
    | cons d ds =>
      have h' : charVar c d = true ∧ charVarL cs ds = true := by
        simpa [charVarL, Bool.and_eq_true] using h
      obtain ⟨key1, key2⟩ := charVar_key h'.1
      rw [List.map_cons, List.map_cons]
      by_cases haln : isAlnumC (nfkcChar c) = true
      · have halnd : isAlnumC (nfkcChar d) = true := key1 ▸ haln
        rw [splitRunsAux_cons_pos haln, splitRunsAux_cons_pos halnd]
        refine ih ds h'.2 _ _ ?_
        show lowerL (nfkcChar c :: acc₁) = lowerL (nfkcChar d :: acc₂)
        unfold lowerL
        rw [List.map_cons, List.map_cons, key2 haln]
        exact congrArg _ hacc
      · have haln' : isAlnumC (nfkcChar c) = false := Bool.eq_false_iff.mpr haln
        have halnd' : isAlnumC (nfkcChar d) = false := key1 ▸ haln'
        rw [splitRunsAux_cons_neg haln', splitRunsAux_cons_neg halnd']
        have hie : acc₁.isEmpty = acc₂.isEmpty := by
          have hlen : acc₁.length = acc₂.length := by
            have h2 := congrArg List.length hacc
            simpa [lowerL] using h2
          cases acc₁ <;> cases acc₂ <;> simp_all
        rw [hie]
        by_cases hc : acc₂.isEmpty = true
        · rw [if_pos hc, if_pos hc]
          exact ih ds h'.2 [] [] rfl
        · rw [if_neg hc, if_neg hc]
          simp only [List.map_cons]
          rw [lowerL_reverse_congr hacc]
          exact congrArg _ (ih ds h'.2 [] [] rfl)

/-- The canonical key is invariant under every "visually same label"
variation. -/
lemma canonKey_labelVar {l₁ l₂ : List Char} (h : LabelVar l₁ l₂) :
    canonKey l₁ = canonKey l₂ := by
  induction h with
  | pointwise l₁ l₂ h => exact charVarL_pointwise l₁ l₂ h [] [] rfl
  | wsHead l w hw =>
    show canonKey l = canonKey (w :: l)
    unfold canonKey splitRuns
    rw [List.map_cons, splitRunsAux_cons_neg (wsVar_nfkc_not_alnum hw)]
    rfl
  | wsTail l w hw =>
    show canonKey l = canonKey (l ++ [w])
    unfold canonKey splitRuns
    rw [List.map_append,
      show List.map nfkcChar [w] = [nfkcChar w] from rfl,
      splitRunsAux_sep_tail (wsVar_nfkc_not_alnum hw)]
  | wsDup a b w w' hw hw' =>
    show canonKey (a ++ w :: b) = canonKey (a ++ w :: w' :: b)
    unfold canonKey splitRuns
    rw [List.map_append, List.map_append, List.map_cons, List.map_cons,
      List.map_cons,
      splitRunsAux_sep_dup (wsVar_nfkc_not_alnum hw) (wsVar_nfkc_not_alnum hw')]
  | punctTail l q hq =>
    show canonKey l = canonKey (l ++ [q])
    unfold canonKey splitRuns
    rw [List.map_append,
      show List.map nfkcChar [q] = [nfkcChar q] from rfl,
      splitRunsAux_sep_tail (punct_nfkc_not_alnum hq)]
  | symm l₁ l₂ h ih => exact ih.symm
  | trans l₁ l₂ l₃ h1 h2 ih1 ih2 => exact ih1.trans ih2

/-- Invariance: `canon` is invariant under every "visually same label" variation. -/
lemma canon_labelVar {s t : String} (h : LabelVar s.data t.data) :
    canon s = canon t := by
  rw [canon_eq_canonKey, canon_eq_canonKey, canonKey_labelVar h]

/-! ## Lemmas about the store operations -/

/-- The row resolver never touches `day_cells`. -/
lemma get_or_create_cells (db : DB) (sid : Nat) («section» : String)
    (sub : Option String) :
    (get_or_create_row_id db sid «section» sub).2.cells = db.cells := by
  unfold get_or_create_row_id
  cases find_existing_row db sid «section» sub with
  | none => rfl
  | some rid => rfl

/-- The row resolver never removes an existing row. -/
lemma get_or_create_keeps_rows (db : DB) (sid : Nat) («section» : String)
    (sub : Option String) (r : RowRec) (hr : r ∈ db.rows) :
    r ∈ (get_or_create_row_id db sid «section» sub).2.rows := by
  unfold get_or_create_row_id
  cases find_existing_row db sid «section» sub with
  | none => exact List.mem_append_left _ hr
  | some rid => exact hr

lemma dayRangeI_nil {s e : Int} (h : e < s) : dayRangeI s e = [] := by
  unfold dayRangeI
  rw [Int.toNat_of_nonpos (by omega)]
  rfl

/-- With no Day-N columns discovered, one scan-loop iteration writes no
day cell. -/
lemma backfillLine_cells {cfg : BackfillCfg} (hday : cfg.cols.dayCols = [])
    (st : ScanState) (row : List String) :
    (backfillLine cfg st row).db.cells = st.db.cells := by
  have hfold : ∀ (rid : Nat) (d : DB) (n : Nat),
      (sortedEntries cfg.cols.dayCols).foldl (backfillCell cfg row rid) (d, n) =
        (d, n) := by
    intro rid d n
    rw [hday]
    rfl
  unfold backfillLine
  dsimp only
  by_cases h1 : is_section_label (norm_spaces (row.getD cfg.nameCol "")) = true
  · rw [if_pos h1]
    cases canonicalSectionFor (norm_spaces (row.getD cfg.nameCol "")) with
    | none => rfl
    | some s =>
      dsimp only
      by_cases h2 : isSingleton s = true
      · rw [if_pos h2]
        dsimp only
        exact get_or_create_cells _ _ _ _
      · rw [if_neg h2]
  · rw [if_neg h1]
    cases st.currentSection with
    | none => rfl
    | some cur =>
      dsimp only
      by_cases h2 : isSingleton cur = true
      · rw [if_pos h2]
        cases st.singleRowId with
        | none => rfl
        | some rid =>
          dsimp only
          rw [hfold]
      · rw [if_neg h2]
        by_cases h3 : norm_spaces (row.getD cfg.nameCol "") = ""
        · rw [if_pos h3]
        · rw [if_neg h3]
          dsimp only
          rw [hfold]
          dsimp only
          exact get_or_create_cells _ _ _ _

/-- With no Day-N columns, the whole scan writes no day cell. -/
lemma backfillScan_cells {cfg : BackfillCfg} (hday : cfg.cols.dayCols = []) :
    ∀ (data : List (List String)) (st : ScanState),
      (data.foldl (backfillLine cfg) st).db.cells = st.db.cells := by
  intro data
  induction data with
  | nil => intro st; rfl
  | cons r rs ih =>
    intro st
    rw [List.foldl_cons, ih, backfillLine_cells hday]

/-- A data line with an unrecognized label, seen before any section header,
changes nothing at all. -/
lemma backfillLine_skip {cfg : BackfillCfg} {st : ScanState}
    {row : List String} (hcur : st.currentSection = none)
    (hlab : is_section_label (norm_spaces (row.getD cfg.nameCol "")) = false) :
    backfillLine cfg st row = st := by
  unfold backfillLine
  rw [if_neg (by rw [hlab]; exact Bool.false_ne_true), hcur]

/-- Sortedness: `get_block` returns its rows in ascending `id` order. -/
lemma sorted_getBlockRows (db : DB) (sid : Nat) (sec ss : String) :
    List.Sorted rowIdLe (getBlockRows db sid sec ss) := by
  unfold getBlockRows
  by_cases h1 : isSingleton sec = true
  · rw [if_pos h1]
    exact List.sorted_insertionSort rowIdLe _
  · rw [if_neg h1]
    by_cases h2 : (decide ¬ss = "" && decide ¬ss = "(none)") = true
    · rw [if_pos h2]
      exact List.sorted_insertionSort rowIdLe _
    · rw [if_neg h2]
      exact List.sorted_insertionSort rowIdLe _

/-! ## The claims -/

/-- C3, counterexample: the spec's pipeline *strips* characters outside
`[0-9A-Za-z ]`, but `canon` replaces them with a space — on `"a-b"` the
code gives `"a b"` while the spec's strip pipeline gives `"ab"`, so
`canonicalize` does not equal the spec's reference pipeline. -/
theorem C3_counterexample :
    canon "a-b" = "a b" ∧ canonSpecStrip "a-b" = "ab" ∧
      canon "a-b" ≠ canonSpecStrip "a-b" :=
  ⟨by decide, by decide, by decide⟩

/-- C3, amended: for every input string, `canonicalize` equals the
reference pipeline with the strip step amended to *replace* every
character (equivalently, every maximal run) that is not an ASCII letter,
digit or space by a space, before collapsing whitespace, trimming and
lower-casing. -/
theorem C3_canon_pipeline : ∀ s : String, canon s = canonAmended s := by
  intro s
  rw [canon_eq_canonKey, canonAmended_eq_canonKey]

/-- C9: raw labels that differ only by letter case, extra whitespace
(including NBSP / narrow NBSP variants), or trailing punctuation have the
same canonical key, and the registry names "1st Floor" and "Ground Floor"
never canonicalize equal. -/
theorem C9_canon_invariant :
    (∀ s t : String, LabelVar s.data t.data → canon s = canon t) ∧
      canon "1st Floor" ≠ canon "Ground Floor" :=
  ⟨fun _ _ h => canon_labelVar h, by decide⟩

/-- Witness for C9: `"Ground Floor"` and `"GROUND  Floor."` (case change,
doubled space, trailing period) are related by `LabelVar` and
canonicalize equally. -/
theorem C9_witness :
    LabelVar ("Ground Floor").data ("GROUND  Floor.").data ∧
      canon "Ground Floor" = canon "GROUND  Floor." := by
  have s1 : LabelVar ("Ground Floor").data ("GROUND Floor").data :=
    LabelVar.pointwise _ _ (by decide)
  have s2 : LabelVar ("GROUND Floor").data ("GROUND  Floor").data :=
    LabelVar.wsDup ("GROUND").data ("Floor").data ' ' ' ' (by decide) (by decide)
  have s3 : LabelVar ("GROUND  Floor").data ("GROUND  Floor.").data :=
    LabelVar.punctTail ("GROUND  Floor").data '.' (by decide)
  have hrel := LabelVar.trans _ _ _ (LabelVar.trans _ _ _ s1 s2) s3
  exact ⟨hrel, C9_canon_invariant.1 _ _ hrel⟩

/-- C10: in the backfill importer, every data line that occurs before the
first recognized section header is skipped entirely: starting from a state
with no current section, a run of lines none of which carries a section
label leaves the scan state — including the store — unchanged. -/
theorem C10_preheader_skip :
    ∀ (cfg : BackfillCfg) (st : ScanState) (lines : List (List String)),
      st.currentSection = none →
      (∀ l ∈ lines,
        is_section_label (norm_spaces (l.getD cfg.nameCol "")) = false) →
      lines.foldl (backfillLine cfg) st = st := by
  intro cfg st lines
  induction lines with
  | nil => intro _ _; rfl
  | cons r rs ih =>
    intro hcur hall
    rw [List.foldl_cons, backfillLine_skip hcur (hall r (List.mem_cons_self r rs))]
    exact ih hcur (fun l hl => hall l (List.mem_cons_of_mem r hl))

def cfgC10 : BackfillCfg := ⟨1, 0, ⟨[(1, 1)], [], []⟩, false⟩

def stC10 : ScanState := ⟨emptyDB, none, none, 0, 0, 0⟩

/-- Witness for C10: two non-label data lines before any header leave the
initial state untouched (even though a Day-1 column exists). -/
theorem C10_witness :
    stC10.currentSection = none ∧
      [["junk", "stuff"], ["Basement", "x"]].foldl (backfillLine cfgC10) stC10 =
        stC10 :=
  ⟨rfl, C10_preheader_skip cfgC10 stC10 [["junk", "stuff"], ["Basement", "x"]]
    rfl (by decide)⟩

def dbC7 : DB := ⟨[], [⟨1, 1, "Outside", some "A", 1⟩], [], [], [], 1, 2⟩

/-- C7, counterexample: with `start_day > end_day`, `crud.fetch_block`
does *not* return an empty row set — a matching row is still returned
(with no day fields), contradicting "no row records at all". -/
theorem C7_counterexample :
    (fetch_block dbC7 1 "Outside" "A" 5 3).rows.map
        (fun fr => (fr.row_id, fr.days)) = [(1, [])] ∧
      (fetch_block dbC7 1 "Outside" "A" 5 3).rows ≠ [] :=
  ⟨by decide, by decide⟩

/-- C7, amended: with `start_day > end_day` the API block read
(`app.get_block`) returns an empty row set and no error, while
`crud.fetch_block` returns the matching row records with an empty day
range (still no error). -/
theorem C7_empty_range :
    ∀ (db : DB) (sid : Nat) (sec ss : String) (sd ed : Int), ed < sd →
      get_block db sid sec ss sd ed = ⟨[]⟩ ∧
        ∀ fr ∈ (fetch_block db sid sec ss sd ed).rows, fr.days = [] := by
  intro db sid sec ss sd ed h
  constructor
  · unfold get_block
    rw [if_pos h]
  · intro fr hfr
    unfold fetch_block at hfr
    by_cases he : (fetchBlockRows db sid sec ss).isEmpty = true
    · rw [if_pos he] at hfr
      simp at hfr
    · rw [if_neg he] at hfr
      dsimp only at hfr
      rcases List.mem_map.mp hfr with ⟨r, _, hfr2⟩
      rw [← hfr2]
      dsimp only
      rw [dayRangeI_nil h]
      rfl

/-- Witness for C7: a concrete inverted range on a store with a matching
row. -/
theorem C7_witness :
    (3 : Int) < 5 ∧ get_block dbC7 1 "Outside" "A" 5 3 = ⟨[]⟩ :=
  ⟨by decide, (C7_empty_range dbC7 1 "Outside" "A" 5 3 (by decide)).1⟩

/-- C1, counterexample: with no Day-N columns recognized, the backfill
importer does not abort with an error before writing — it completes
successfully and still creates a sheet row (the singleton Roof row),
committing that state. -/
theorem C1_counterexample :
    scanHeader (["Name"].map norm_spaces) = ⟨[], [], []⟩ ∧
      backfillMain emptyDB 7 none false [["Name"], ["Roof"]] =
        .ok ({ emptyDB with
                rows := [⟨1, 7, "Roof", none, 1⟩],
                nextRowId := 2 }, 0) :=
  ⟨by decide, by decide⟩

/-- C1, amended: `import_csv` does fail fast — with no Day-N columns it
aborts with the descriptive error before touching the store — but the
backfill importer does not abort: it completes the run and writes no day
cells (though it may still create rows). -/
theorem C1_day_columns :
    (∀ (auditOk : Bool) (db : DB) (cols : List String)
        (body : List (List (Option String))) (name : String),
        computeTriplets cols = [] →
        import_csv auditOk db cols body name =
          .error "No 'Day N' columns found") ∧
      (∀ (db db' : DB) (sheet : Nat) (nameColO : Option Nat) (dry : Bool)
        (hrow : List String) (data : List (List String)) (n : Nat),
        (scanHeader (hrow.map norm_spaces)).dayCols = [] →
        backfillMain db sheet nameColO dry (hrow :: data) = .ok (db', n) →
        db'.cells = db.cells) := by
  constructor
  · intro auditOk db cols body name h
    unfold import_csv
    rw [h]
    rfl
  · intro db db' sheet nameColO dry hrow data n hday hrun
    unfold backfillMain at hrun
    dsimp only at hrun
    injection hrun with h2
    have h3 := congrArg Prod.fst h2
    dsimp only at h3
    rw [← h3]
    cases dry with
    | true => rfl
    | false => exact backfillScan_cells hday data ⟨db, none, none, 0, 0, 0⟩

def dbC1w : DB := { emptyDB with rows := [⟨1, 7, "Roof", none, 1⟩], nextRowId := 2 }

/-- Witness for C1: a header with no Day columns makes `import_csv` abort,
and a concrete backfill run with no Day columns leaves the day-cell table
unchanged. -/
theorem C1_witness :
    import_csv true emptyDB ["Name"] [[some "A"]] "S" =
        .error "No 'Day N' columns found" ∧
      dbC1w.cells = emptyDB.cells :=
  ⟨C1_day_columns.1 true emptyDB ["Name"] [[some "A"]] "S" (by decide),
    C1_day_columns.2 emptyDB dbC1w 7 none false ["Name"] [["Roof"]] 0
      (by decide) (by decide)⟩

def dbC2 : DB := ⟨[⟨1, "S"⟩], [⟨1, 1, "Outside", some "A", 1⟩], [], [], [], 2, 2⟩

/-- C2, counterexample: re-running the `import_csv` importer over a sheet
deletes the sheet's existing rows: after the import the pre-existing row
(id 1) is gone and the same (section, subsection) slot has a fresh id. -/
theorem C2_counterexample :
    dbC2.rows = [⟨1, 1, "Outside", some "A", 1⟩] ∧
      (import_csv true dbC2 ["Name", "Day 1"]
          [[some "Outside", none], [some "A", some "x"]] "S").map
        (fun d => (d.rows, d.cells)) =
      .ok ([⟨2, 1, "Outside", some "A", 1⟩], [⟨2, 1, some "x", none, none⟩]) :=
  ⟨rfl, by decide⟩

/-- C2, amended: the backfill row resolver (`get_or_create_row_id`) never
deletes or renumbers existing rows — every stored row survives unchanged
and day cells are untouched; a hit returns the existing id with the store
unmodified, and a miss appends one new row with
`row_order = COALESCE(MAX(row_order),0)+1` (so 1 on an empty sheet).  The
`import_csv` importer instead clears the sheet's rows and cells and
rebuilds them with fresh ids (see the counterexample). -/
theorem C2_row_stability :
    ∀ (db : DB) (sid : Nat) (sec : String) (sub : Option String),
      (∀ r ∈ db.rows, r ∈ (get_or_create_row_id db sid sec sub).2.rows) ∧
      (get_or_create_row_id db sid sec sub).2.cells = db.cells ∧
      (∀ rid, find_existing_row db sid sec sub = some rid →
        get_or_create_row_id db sid sec sub = (rid, db)) ∧
      (find_existing_row db sid sec sub = none →
        (get_or_create_row_id db sid sec sub).2.rows =
          db.rows ++ [⟨db.nextRowId, sid, sec, sub, next_row_order db sid⟩]) := by
  intro db sid sec sub
  refine ⟨fun r hr => get_or_create_keeps_rows db sid sec sub r hr,
    get_or_create_cells db sid sec sub, ?_, ?_⟩
  · intro rid hfind
    unfold get_or_create_row_id
    rw [hfind]
  · intro hfind
    unfold get_or_create_row_id
    rw [hfind]

def dbC2w : DB := ⟨[], [⟨1, 1, "Outside", some "A", 1⟩], [], [], [], 1, 2⟩

/-- Witness for C2: a resolver hit returns the stored id without touching
the store; a miss on an empty store appends one row with `row_order = 1`. -/
theorem C2_witness :
    get_or_create_row_id dbC2w 1 "Outside" (some "A") = (1, dbC2w) ∧
      (get_or_create_row_id emptyDB 1 "Outside" (some "A")).2.rows =
        emptyDB.rows ++ [⟨1, 1, "Outside", some "A", 1⟩] := by
  constructor
  · exact (C2_row_stability dbC2w 1 "Outside" (some "A")).2.2.1 1 (by decide)
  · have h := (C2_row_stability emptyDB 1 "Outside" (some "A")).2.2.2 (by decide)
    rw [h]
    decide

def dbC4 : DB :=
  ⟨[], [⟨1, 1, "Outside", some "entry", 1⟩, ⟨2, 1, "Outside", some "Entry", 1⟩],
    [], [], [], 1, 3⟩

/-- C4, counterexample: subsection matching in `app.get_block` is not
case-insensitive (stored `"entry"` is excluded when querying `"Entry"`)
and does not trim the query (stored `"Entry"` is excluded when querying
`" Entry"`), contradicting "case- and whitespace-insensitive". -/
theorem C4_counterexample :
    (get_block dbC4 1 "Outside" "Entry" 1 2).rows.map (fun br => br.row_id) =
        [2] ∧
      (get_block dbC4 1 "Outside" " Entry" 1 2).rows.map (fun br => br.row_id) =
        [] :=
  ⟨by decide, by decide⟩

/-- C4, amended: subsection matching trims the *stored* value only and is
case-sensitive: every stored row whose SQL-trimmed subsection equals the
queried subsection exactly is included in the block read for that
(sheet, section, subsection). -/
theorem C4_subsection_match :
    ∀ (db : DB) (sid : Nat) (sec ss : String) (sd ed : Int) (r : RowRec),
      r ∈ db.rows → r.sheet_id = sid → sectionMatches r sec = true →
      isSingleton sec = false → ss ≠ "" → ss ≠ "(none)" →
      coalesceSub r.subsection = ss → sd ≤ ed →
      r.id ∈ (get_block db sid sec ss sd ed).rows.map (fun br => br.row_id) := by
  intro db sid sec ss sd ed r hr hsheet hsec hsing hne1 hne2 hsub hrange
  unfold get_block
  rw [if_neg (by omega)]
  dsimp only
  rw [List.map_map]
  have hmem : r ∈ getBlockRows db sid sec ss := by
    unfold getBlockRows
    rw [if_neg (by rw [hsing]; exact Bool.false_ne_true),
      if_pos (by simp [hne1, hne2])]
    exact (List.perm_insertionSort rowIdLe _).mem_iff.mpr
      (List.mem_filter.mpr ⟨hr, by simp [hsheet, hsec, hsub]⟩)
  exact List.mem_map.mpr ⟨r, hmem, rfl⟩

def dbC4w : DB := ⟨[], [⟨1, 1, "Outside", some " Entry ", 1⟩], [], [], [], 1, 2⟩

/-- Witness for C4: a stored subsection `" Entry "`, differing from the
query `"Entry"` only by surrounding whitespace, is included in the read. -/
theorem C4_witness :
    (⟨1, 1, "Outside", some " Entry ", 1⟩ : RowRec) ∈ dbC4w.rows ∧
      (1 : Nat) ∈ (get_block dbC4w 1 "Outside" "Entry" 1 2).rows.map
        (fun br => br.row_id) :=
  ⟨by decide, C4_subsection_match dbC4w 1 "Outside" "Entry" 1 2
    ⟨1, 1, "Outside", some " Entry ", 1⟩ (by decide) (by decide) (by decide)
    (by decide) (by decide) (by decide) (by decide) (by decide)⟩

def dbC5 : DB :=
  ⟨[], [⟨1, 1, "Outside", some "A", 2⟩, ⟨2, 1, "Outside", some "B", 1⟩],
    [], [], [], 1, 3⟩

/-- C5, counterexample: `app.get_block` orders rows by id, not by
row_order: the returned sequence is [row 1, row 2] whose row_order values
are [2, 1] — not ascending, though no row_order tie is involved. -/
theorem C5_counterexample :
    (get_block dbC5 1 "Outside" "" 1 1).rows.map (fun br => br.row_id) =
        [1, 2] ∧
      dbC5.rows.map (fun r => (r.id, r.row_order)) = [(1, 2), (2, 1)] ∧
      ¬ (2 : Nat) ≤ 1 :=
  ⟨by decide, by decide, by decide⟩

/-- C5, amended: `app.get_block` returns its rows ordered by id ascending
(its deterministic `ORDER BY id`), while `crud.fetch_block` sorts its
selection by row_order ascending and emits the rows in that order. -/
theorem C5_block_order :
    ∀ (db : DB) (sid : Nat) (sec ss : String) (sd ed : Int),
      List.Sorted (fun a b : Nat => a ≤ b)
        ((get_block db sid sec ss sd ed).rows.map (fun br => br.row_id)) ∧
      List.Sorted rowOrderLe (fetchBlockRows db sid sec ss) ∧
      (fetch_block db sid sec ss sd ed).rows.map (fun fr => fr.row_id) =
        (fetchBlockRows db sid sec ss).map (fun r => r.id) := by
  intro db sid sec ss sd ed
  refine ⟨?_, List.sorted_insertionSort rowOrderLe _, ?_⟩
  · unfold get_block
    by_cases h : ed < sd
    · rw [if_pos h]
      exact List.sorted_nil
    · rw [if_neg h]
      dsimp only
      rw [List.map_map]
      exact List.Pairwise.map _ (fun a b hab => hab)
        (sorted_getBlockRows db sid sec ss)
  · unfold fetch_block
    by_cases h : (fetchBlockRows db sid sec ss).isEmpty = true
    · rw [if_pos h]
      have h2 : fetchBlockRows db sid sec ss = [] := by
        cases hh : fetchBlockRows db sid sec ss with
        | nil => rfl
        | cons a as => rw [hh] at h; simp at h
      rw [h2]
      rfl
    · rw [if_neg h]
      dsimp only
      rw [List.map_map]
      rfl

def dbC6 : DB := ⟨[], [⟨1, 1, "Outside", some "A", 1⟩], [], [], [], 1, 2⟩

/-- C6, counterexample: when both audit insert attempts fail, the bulk
write endpoint raises after the data commit — the day cell is committed,
yet the caller receives the audit error instead of the updated count. -/
theorem C6_counterexample :
    (bulk_upsert false false dbC6 "u" [⟨1, 3, some "T", some 2, some "L"⟩]).2 =
        .error "audit insert failed" ∧
      (bulk_upsert false false dbC6 "u"
          [⟨1, 3, some "T", some 2, some "L"⟩]).1.cells =
        [⟨1, 3, some "T", some 2, some "L"⟩] :=
  ⟨by decide, by decide⟩

/-- C6, amended: an audit failure never rolls back the committed data —
the rows and day-cells after `app.bulk_upsert` are the same whatever the
outcome of the two audit attempts, and in `crud.bulk_upsert_cells` the
audit failure is swallowed entirely (same data, same return value).  In
the API path, however, the audit exception does propagate to the caller
after the commit (see the counterexample). -/
theorem C6_audit_isolated :
    (∀ (f1 f2 : Bool) (db : DB) (user : String) (recs : List BulkCell),
        (bulk_upsert f1 f2 db user recs).1.cells =
          (bulk_upsert true true db user recs).1.cells ∧
        (bulk_upsert f1 f2 db user recs).1.rows =
          (bulk_upsert true true db user recs).1.rows) ∧
      (∀ (ok : Bool) (db : DB) (recs : List CellRec),
        (bulk_upsert_cells ok db recs).1.cells =
          (bulk_upsert_cells true db recs).1.cells ∧
        (bulk_upsert_cells ok db recs).2 =
          (bulk_upsert_cells true db recs).2) := by
  constructor
  · intro f1 f2 db user recs
    unfold bulk_upsert write_audit
    by_cases hrec : recs.isEmpty = true
    · rw [if_pos hrec, if_pos hrec]
      exact ⟨rfl, rfl⟩
    · rw [if_neg hrec, if_neg hrec]
      cases f1 <;> cases f2 <;> exact ⟨rfl, rfl⟩
  · intro ok db recs
    unfold bulk_upsert_cells crud_audit
    by_cases hrec : recs.isEmpty = true
    · rw [if_pos hrec, if_pos hrec]
      exact ⟨rfl, rfl⟩
    · rw [if_neg hrec, if_neg hrec]
      cases ok <;> exact ⟨rfl, rfl⟩

/-- Padding: `norm_spaces` ignores surrounding whitespace padding. -/
lemma norm_spaces_pad (s : String) :
    norm_spaces ((" " ++ s) ++ " ") = norm_spaces s := by
  unfold norm_spaces normSpacesL pySplit splitRuns
  rw [String.data_append, String.data_append,
    show (" " : String).data = [' '] from rfl]
  simp only [List.map_append, List.map_cons, List.map_nil, List.cons_append,
    List.nil_append, List.append_assoc,
    show nbspRep ' ' = ' ' from rfl, show nnbspRep ' ' = ' ' from rfl]
  rw [splitRunsAux_cons_neg (by decide),
    splitRunsAux_sep_tail (by decide)]
  rfl

/-- C8, counterexample: the backfill `parse_float` is *not* tolerant of
thousands separators — `"1,234"` yields null there (only `import_csv`'s
`as_float` strips the comma and parses 1234). -/
theorem C8_counterexample :
    parse_float "1,234" = none ∧ as_float (some "1,234") = some 1234 := by
  refine ⟨by decide, ?_⟩
  show some (((1234 : ℕ) : ℚ)) = some (1234 : ℚ)
  norm_num

/-- C8, amended: hours parsing never raises — unparseable text (including
comma-grouped text in `parse_float`) yields null; both parsers tolerate
surrounding whitespace (`" 4.5 "` parses to 4.5, and `parse_float` is
invariant under whitespace padding), and `as_float` additionally strips
thousands separators (`"1,234"` parses to 1234) while `parse_float`
yields null for them. -/
theorem C8_hours_parsing :
    (∀ s : String, parse_float ((" " ++ s) ++ " ") = parse_float s) ∧
      parse_float " 4.5 " = some (9 / 2) ∧
      parse_float "1,234" = none ∧
      as_float (some " 4.5 ") = some (9 / 2) ∧
      as_float (some "1,234") = some 1234 := by
  refine ⟨?_, ?_, by decide, ?_, ?_⟩
  · intro s
    unfold parse_float
    rw [norm_spaces_pad]
  · show some (((4 : ℕ) : ℚ) + ((5 : ℕ) : ℚ) / ((10 : ℚ) ^ (1 : ℕ))) =
      some ((9 : ℚ) / 2)
    norm_num
  · show some (((4 : ℕ) : ℚ) + ((5 : ℕ) : ℚ) / ((10 : ℚ) ^ (1 : ℕ))) =
      some ((9 : ℚ) / 2)
    norm_num
  · show some (((1234 : ℕ) : ℚ)) = some (1234 : ℚ)
    norm_num

end CE
